import Mathlib

/-!
Shallow embedding of `src/src/miner/main_cpu_miner.cpp` (mwc-cpu-miner),
the session supervisor / orchestrator loop of the CPU miner, together with
its command-line argument parser.

The file first embeds the argument parsing of `main` (lines 52–97), then the
orchestrator loop body (lines 144–190), the per-epoch run of that loop, and
the outer session-supervisor loop (lines 127–197).  Components that live
outside `src/` (MinerNetwork, the cuckatoo solver, the reader/writer threads
and the wall clock) are modelled as per-iteration environment observations,
as described in the doc comments below.  Time is measured in milliseconds,
so `std::chrono::seconds(20)` becomes the literal `20000`.
-/

namespace MwcMiner

/-! ## Argument parsing (main, lines 52–97) -/

/-- Configuration accumulated by the argument-parsing loop: `nodeHost`,
`nodePort`, `loginName`, `password`, `algo` (lines 57–61 of the source).
`nodePort` starts at `-1` and `nodeHost` empty, which is how the final
check at line 88 detects a missing `-node` argument. -/
structure Config where
  nodeHost : String
  nodePort : Int
  loginName : String
  password : String
  algo : String
deriving DecidableEq, Repr

/-- Initial values of the option variables (lines 57–61). -/
def initConfig : Config := ⟨"", -1, "", "", ""⟩

/-- Failure modes of argument parsing, one per early `return 1` of `main`
(lines 52–97).  `stoiFailure` models `std::stoi` throwing on a port string
with no leading integer, which terminates the process abnormally (nonzero
status) before any connection is made. -/
inductive ParseError where
  | usage
  | invalidNode
  | stoiFailure
  | unknownArg (key : String)
  | missingNode
  | invalidAlgo
deriving DecidableEq, Repr

/-- Value of the leading decimal-digit run of a character list, accumulated
left to right; stops at the first non-digit, as `std::stoi` does. -/
def digitsAcc : List Char → Nat → Nat
  | c :: rest, acc => if c.isDigit then digitsAcc rest (acc * 10 + (c.toNat - 48)) else acc
  | [], acc => acc

/-- Model of `std::stoi`: skip leading whitespace, accept an optional sign,
then require at least one decimal digit; `none` models the
`std::invalid_argument` exception.  (Overflow of the C `int` range is not
modelled; no claim depends on it.) -/
def cppStoi (s : String) : Option Int :=
  let cs := s.toList.dropWhile fun c => c = ' ' || c = '\t' || c = '\n' || c = '\r'
  match cs with
  | '-' :: c :: rest =>
    if c.isDigit then some (-(digitsAcc (c :: rest) 0 : Int)) else none
  | '+' :: c :: rest =>
    if c.isDigit then some ((digitsAcc (c :: rest) 0 : Int)) else none
  | c :: rest =>
    if c.isDigit then some ((digitsAcc (c :: rest) 0 : Int)) else none
  | [] => none

/-- Position of the first `':'` of a character list, `none` when there is
no colon: `value.find(':')` with the `std::string::npos` check of line 69. -/
def findColon : List Char → Option Nat
  | [] => none
  | c :: rest => if c = ':' then some 0 else (findColon rest).map (· + 1)

/-- One key/value pair of the parsing loop (lines 63–86): `-node` splits its
value at the first `':'` (`value.find(':')`, `value.substr(0, colonPos)`,
`value.substr(colonPos + 1)`), `-login`, `-pass` and `-algo` store their
value, and any other key is rejected with "Unknown arguments". -/
def applyPair (key value : String) (st : Config) : Except ParseError Config :=
  if key = "-node" then
    match findColon value.toList with
    | none => Except.error ParseError.invalidNode
    | some i =>
      match cppStoi (String.mk (value.toList.drop (i + 1))) with
      | some port =>
        Except.ok { st with
          nodeHost := String.mk (value.toList.take i)
          nodePort := port }
      | none => Except.error ParseError.stoiFailure
  else if key = "-login" then Except.ok { st with loginName := value }
  else if key = "-pass" then Except.ok { st with password := value }
  else if key = "-algo" then Except.ok { st with algo := value }
  else Except.error (ParseError.unknownArg key)

deriving instance DecidableEq for Except

/-- Decidability of a `≤`-chain of naturals by structural recursion (the
Mathlib instance does not reduce under `decide`). -/
def chainLeDec (a : Nat) : (l : List Nat) → Decidable (List.Chain (· ≤ ·) a l)
  | [] => Decidable.isTrue List.Chain.nil
  | b :: l =>
    match Nat.decLe a b, chainLeDec b l with
    | Decidable.isTrue h1, Decidable.isTrue h2 =>
      Decidable.isTrue (List.Chain.cons h1 h2)
    | Decidable.isFalse h1, _ =>
      Decidable.isFalse fun h => h1 (List.chain_cons.mp h).1
    | _, Decidable.isFalse h2 =>
      Decidable.isFalse fun h => h2 (List.chain_cons.mp h).2

instance : ∀ (a : Nat) (l : List Nat), Decidable (List.Chain (· ≤ ·) a l) :=
  chainLeDec

/-- The parsing loop `for (int i = 2; i < argc; i += 2)` over
`argv[i-1], argv[i]`: the tokens after the program name are consumed in
consecutive pairs, and a trailing unpaired token falls outside the loop
bound and is ignored. -/
def parsePairs : List String → Config → Except ParseError Config
  | key :: value :: rest, st =>
    match applyPair key value st with
    | Except.ok st' => parsePairs rest st'
    | Except.error e => Except.error e
  | _, st => Except.ok st

/-- Post-loop validation (lines 88–97): reject a missing `-node`
(`nodePort == -1 || nodeHost.empty()`), then an algorithm other than
`C31`/`C32`. -/
def checkConfig (st : Config) : Except ParseError Config :=
  if st.nodePort = -1 ∨ st.nodeHost = "" then Except.error ParseError.missingNode
  else if st.algo ≠ "C31" ∧ st.algo ≠ "C32" then Except.error ParseError.invalidAlgo
  else Except.ok st

/-- Entire argument-parsing phase of `main` (lines 52–97), over the full
`argv` list (program name included, so `argv.length` is `argc`).  An
`Except.error` models the corresponding `std::cerr` report followed by
`return 1`. -/
def parseArgs (argv : List String) : Except ParseError Config :=
  if argv.length < 7 then Except.error ParseError.usage
  else
    match parsePairs argv.tail initConfig with
    | Except.ok st => checkConfig st
    | Except.error e => Except.error e

/-! ## Jobs, requests and the orchestrator loop (main, lines 105–190) -/

/-- Modelled from the spec: a mining job (`CuckaJob`, declared in
`cuckatoo.h`, which is not under `src/`).  Per spec §3 a Job carries an id,
height, difficulty, job-specific seed material and a validity flag; `main`
reads `jobId`, `height`, `difficulty`, calls `is_valid()` and
`calculate_seed_hash`.  The seed material is abstracted as a list of bytes
(`prePow`). -/
structure CuckaJob where
  jobId : Nat
  height : Nat
  difficulty : Nat
  prePow : List Nat
  valid : Bool
deriving DecidableEq, Repr

/-- The job validity test used at lines 154 and 167. -/
def CuckaJob.is_valid (j : CuckaJob) : Bool := j.valid

/-- A seed hash: the four 64-bit words `uint64_t v[4]` filled by
`calculate_seed_hash` (values abstracted as naturals). -/
abbrev Seed := Nat × Nat × Nat × Nat

/-- Modelled from the spec: an outbound protocol request, one constructor
per `MinerNetwork::send*` call of `main` (the network class itself is not
under `src/`).  Per spec §6 a submit request carries the algorithm
edge-parameter, the job, the nonce and the solution candidate set — exactly
the arguments of `sendResponseRequest(edge_bits, currentTask, nonce,
res_nonces)` — and is a single request per attempt. -/
inductive Request where
  | login (user pass : String) (flag : Bool)
  | keepAlive
  | getJob
  | submit (edgeBits : Nat) (job : CuckaJob) (nonce : Nat) (nonces : List Nat)
deriving DecidableEq, Repr

/-- Console lines printed by the orchestrator loop body (lines 157, 174,
187). -/
inductive LogLine where
  | jobPoolEmpty
  | startingJob (jobId height difficulty nonce : Nat)
  | foundSolutions (count : Nat) (hash : List Nat)
deriving DecidableEq, Repr

/-- Modelled from the spec: one orchestrator-loop iteration's view of its
environment.  The reader/writer threads, the shared running flag, the
steady clock, the job slot, the random nonce draw and the cuckatoo solver
all live outside `src/` (MinerNetwork / `cuckatoo.h` / the C++ runtime), so
their values at each iteration are supplied as an observation: `isRunning`
is `network.is_running()`, `exiting` is the SIGINT flag, `now` the clock in
milliseconds, `slot` the result of `getActiveJob()`, `nonce` the
`uint64_dist(nonce_gen)` draw, `graphs` the solver's `res_graphs`,
`resNonces` and `hash` the outputs of `resolve_found_to_nonces`. -/
structure Obs where
  isRunning : Bool
  exiting : Bool
  now : Nat
  slot : CuckaJob
  nonce : Nat
  graphs : List (List Nat)
  resNonces : List Nat
  hash : List Nat
deriving DecidableEq, Repr

/-- The two orchestrator timers, `last_get_job_request_time` and
`last_keep_alive_request_time` (lines 141–142), in milliseconds. -/
structure OrchState where
  lastGetJob : Nat
  lastKeepAlive : Nat
deriving DecidableEq, Repr

/-- Startup-derived parameters of the loop: the edge-parameter selected
from the algorithm (31 or 32), the login credentials, and the external
seed-derivation function `CuckaJob::calculate_seed_hash` (not under
`src/`), kept abstract. -/
structure Params where
  edge_bits : Nat
  loginName : String
  password : String
  hashFn : CuckaJob → Nat → Seed

/-- Result of one pass through the orchestrator loop body: updated timers,
requests enqueued (each stamped with the `now` at which it was enqueued),
log lines, and — when a job was present — the solving attempt performed:
the job read from the slot, the nonce drawn for it, and the seed hash
derived from that job and that nonce. -/
structure BodyOut where
  st : OrchState
  reqs : List (Nat × Request)
  logs : List LogLine
  attempt : Option (CuckaJob × Nat × Seed)
deriving DecidableEq, Repr

/-- Lines 151–190 of the loop body, after the keep-alive check: poll the
job slot; if no valid job, send a get-job request when more than 5 s
(strict `>`, line 156) have passed since the last one, else idle; if a job
is present, draw a nonce, derive the seed hash, run the solver, and when
`res_graphs` is nonempty enqueue exactly one submit request carrying the
task, the nonce and the resolved solution nonces (line 188). -/
def jobPhase (p : Params) (o : Obs) (s : OrchState)
    (kaReqs : List (Nat × Request)) : BodyOut :=
  if o.slot.is_valid = false then
    if o.now - s.lastGetJob > 5000 then
      ⟨{ s with lastGetJob := o.now }, kaReqs ++ [(o.now, Request.getJob)],
        [LogLine.jobPoolEmpty], none⟩
    else ⟨s, kaReqs, [], none⟩
  else
    let nonce := o.nonce
    let seed := p.hashFn o.slot nonce
    let startLog := LogLine.startingJob o.slot.jobId o.slot.height o.slot.difficulty nonce
    if o.graphs.isEmpty then
      ⟨s, kaReqs, [startLog], some (o.slot, nonce, seed)⟩
    else
      ⟨s, kaReqs ++ [(o.now, Request.submit p.edge_bits o.slot nonce o.resNonces)],
        [startLog, LogLine.foundSolutions o.graphs.length o.hash],
        some (o.slot, nonce, seed)⟩

/-- One pass through the orchestrator loop body (lines 145–190): first the
keep-alive timer check (strict `>` 20 s, line 146), then the job phase. -/
def orchBody (p : Params) (o : Obs) (s : OrchState) : BodyOut :=
  if o.now - s.lastKeepAlive > 20000 then
    jobPhase p o { s with lastKeepAlive := o.now } [(o.now, Request.keepAlive)]
  else
    jobPhase p o s []

/-- Result of running the orchestrator loop over a list of observations:
final timers, all requests enqueued, all log lines, and whether the loop
exited because its condition `network.is_running() && !exiting` was
observed false (`exited = false` means the observation supply ran out with
the loop still running). -/
structure RunOut where
  st : OrchState
  reqs : List (Nat × Request)
  logs : List LogLine
  exited : Bool
deriving DecidableEq, Repr

/-- The orchestrator loop `while (network.is_running() && !exiting)`
(lines 144–190): each iteration first re-checks the condition against the
current observation, then runs the body. -/
def orchRun (p : Params) : OrchState → List Obs → RunOut
  | s, [] => ⟨s, [], [], false⟩
  | s, o :: rest =>
    if o.isRunning && !o.exiting then
      let b := orchBody p o s
      let r := orchRun p b.st rest
      ⟨r.st, b.reqs ++ r.reqs, b.logs ++ r.logs, r.exited⟩
    else ⟨s, [], [], true⟩

/-! ## Session supervisor (main, lines 127–197) -/

/-- Modelled from the spec: the environment of one iteration of the outer
`while(!exiting)` loop.  `exitingAtTop` is the SIGINT flag at the loop
condition, `connectDur` the time the `connect` call takes, `connectOk` its
result, `obs` the inner-loop observations of the epoch, and `postTime` the
clock when the epoch has been torn down (threads joined). -/
structure EpochIn where
  exitingAtTop : Bool
  connectDur : Nat
  connectOk : Bool
  obs : List Obs
  postTime : Nat
deriving DecidableEq, Repr

/-- Observable actions of the session supervisor: a `connect` attempt, an
enqueue onto the outbound queue (login from line 139, plus everything the
orchestrator enqueues), `stop_running` (line 192) and the two thread joins
(lines 195–196). -/
inductive SupEvent where
  | connectAttempt
  | enqueue (r : Request)
  | stopRunning
  | joinReader
  | joinWriter
deriving DecidableEq, Repr

/-- How a supervisor run ended: `cancelled` when `exiting` was observed
true at the top of the outer loop, `fuelOut` when the supplied epoch
inputs were exhausted with the loop still running. -/
inductive SupResult where
  | cancelled
  | fuelOut
deriving DecidableEq, Repr

/-- Result of the outer loop: final clock, time-stamped event trace, and
how the loop ended. -/
structure SupOut where
  time : Nat
  events : List (Nat × SupEvent)
  result : SupResult
deriving DecidableEq, Repr

/-- The outer session-supervisor loop `while(!exiting)` (lines 127–197):
attempt to connect; on failure sleep 30 s (line 131) and retry; on success
start the reader and writer threads, enqueue the login request (line 139),
initialise both timers to the current clock (lines 141–142), run the
orchestrator loop, then stop and join both threads before looping. -/
def superRun (p : Params) : Nat → List EpochIn → SupOut
  | t, [] => ⟨t, [], SupResult.fuelOut⟩
  | t, e :: rest =>
    if e.exitingAtTop then ⟨t, [], SupResult.cancelled⟩
    else
      let t1 := t + e.connectDur
      if e.connectOk then
        let inner := orchRun p ⟨t1, t1⟩ e.obs
        let t2 := e.postTime
        let r := superRun p t2 rest
        ⟨r.time,
          (t, SupEvent.connectAttempt) ::
            (t1, SupEvent.enqueue (Request.login p.loginName p.password true)) ::
            (inner.reqs.map fun q => (q.1, SupEvent.enqueue q.2)) ++
            (t2, SupEvent.stopRunning) :: (t2, SupEvent.joinReader) ::
            (t2, SupEvent.joinWriter) :: r.events,
          r.result⟩
      else
        let r := superRun p (t1 + 30000) rest
        ⟨r.time, (t, SupEvent.connectAttempt) :: r.events, r.result⟩

/-- Exit status and supervisor run of one process execution of `main`:
a parse error yields status 1 with no supervisor run (and hence no connect
attempt); otherwise the supervisor runs with the edge-parameter selected
from the algorithm (lines 107–116) and `main` returns 0 (line 202). -/
structure MainOut where
  exitCode : Nat
  sup : Option SupOut
deriving DecidableEq, Repr

/-- The whole of `main`, as a function of the argument vector, the external
seed-hash function and the epoch environment. -/
def mainModel (hashFn : CuckaJob → Nat → Seed) (argv : List String)
    (inputs : List EpochIn) : MainOut :=
  match parseArgs argv with
  | Except.error _ => ⟨1, none⟩
  | Except.ok cfg =>
    let eb := if cfg.algo = "C31" then 31 else 32
    ⟨0, some (superRun ⟨eb, cfg.loginName, cfg.password, hashFn⟩ 0 inputs)⟩

/-! ## Observation helpers -/

/-- Whether a request is a submit request. -/
def Request.isSubmit : Request → Bool
  | Request.submit _ _ _ _ => true
  | _ => false

/-- Whether a request is a get-job request. -/
def Request.isGetJob : Request → Bool
  | Request.getJob => true
  | _ => false

/-- Whether a request is a keep-alive request. -/
def Request.isKeepAlive : Request → Bool
  | Request.keepAlive => true
  | _ => false

/-- Whether a request is a login request. -/
def Request.isLogin : Request → Bool
  | Request.login _ _ _ => true
  | _ => false

/-- Enqueue times of the requests selected by `sel`, in enqueue order. -/
def reqTimes (sel : Request → Bool) (l : List (Nat × Request)) : List Nat :=
  (l.filter fun q => sel q.2).map Prod.fst

/-- Whether a supervisor event is a connect attempt. -/
def SupEvent.isConnect : SupEvent → Bool
  | SupEvent.connectAttempt => true
  | _ => false

/-- Times of the connect attempts of a supervisor run, in order. -/
def connectTimes (s : SupOut) : List Nat :=
  (s.events.filter fun ev => SupEvent.isConnect ev.2).map Prod.fst

/-! ## Concrete scenario inputs -/

/-- An empty job slot: `getActiveJob()` returning a job whose
`is_valid()` is false. -/
def invalidJob : CuckaJob := ⟨0, 0, 0, [], false⟩

/-- The `k`-th observation of the canonical idle epoch: the loop wakes
every 100 ms (the idle sleep at line 162), the connection stays up, no
SIGINT, and the job slot never holds a valid job. -/
def idleObs (k : Nat) : Obs := ⟨true, false, 100 * k, invalidJob, 0, [], [], []⟩

/-- The first 10 seconds of the canonical idle epoch (iterations at
t = 0 ms, 100 ms, …, 10000 ms). -/
def idleTrace : List Obs := (List.range 101).map idleObs

/-- Concrete loop parameters used by the scenario theorems. -/
def p0 : Params := ⟨31, "user", "pass", fun _ _ => (0, 0, 0, 0)⟩

/-- A test of whether a request is one the orchestrator loop body can
enqueue: a keep-alive, a get-job or a submit request (never a login). -/
def isLoopRequest (q : Nat × Request) : Bool :=
  Request.isKeepAlive q.2 || Request.isGetJob q.2 || Request.isSubmit q.2

/-- A concrete valid job, the one of the spec scenario
(id 7, height 100, difficulty 1). -/
def mineJob : CuckaJob := ⟨7, 100, 1, [], true⟩

/-- An observation in which the slot holds `mineJob`, the drawn nonce is
42 and the solver finds one cycle. -/
def mineObs : Obs := ⟨true, false, 0, mineJob, 42, [[1, 2]], [5, 6], [9]⟩

/-- An observation in which the slot holds `mineJob`, the drawn nonce is
42 and the solver finds nothing. -/
def mineObsNone : Obs := ⟨true, false, 0, mineJob, 42, [], [], []⟩

/-- An idle observation at exactly 20 s after the keep-alive timer was
reset: the boundary case of the keep-alive trigger. -/
def kaBoundaryObs : Obs := ⟨true, false, 20000, invalidJob, 0, [], [], []⟩

/-- An idle observation strictly more than 20 s after the keep-alive timer
was reset. -/
def kaFireObs : Obs := ⟨true, false, 20100, invalidJob, 0, [], [], []⟩

/-- An observation at which the SIGINT flag has fired. -/
def exitObs : Obs := ⟨true, true, 0, invalidJob, 0, [], [], []⟩

/-- An observation at which the connection has failed mid-epoch
(running flag false, no cancellation). -/
def failObs : Obs := ⟨false, false, 100, invalidJob, 0, [], [], []⟩

/-- A successful epoch whose only inner observation is `failObs`. -/
def eFail : EpochIn := ⟨false, 0, true, [failObs], 50⟩

/-- An epoch input whose connect attempt fails. -/
def eConnFail : EpochIn := ⟨false, 0, false, [], 0⟩

/-- An epoch input at whose top the cancellation flag has fired. -/
def eCancel : EpochIn := ⟨true, 0, false, [], 0⟩

/-- A well-formed argument vector. -/
def goodArgv : List String := ["miner", "-node", "h:13", "-login", "u", "-algo", "C31"]

/-- A well-formed argument vector with one trailing unpaired token. -/
def oddArgv : List String :=
  ["miner", "-node", "h:13", "-login", "u", "-algo", "C31", "junk"]

/-! ## Helper lemmas -/

theorem reqTimes_append (sel : Request → Bool) (a b : List (Nat × Request)) :
    reqTimes sel (a ++ b) = reqTimes sel a ++ reqTimes sel b := by
  simp [reqTimes, List.filter_append]

theorem chain_le_of_le {a b : Nat} {l : List Nat} (hab : a ≤ b)
    (h : List.Chain (· ≤ ·) b l) : List.Chain (· ≤ ·) a l := by
  cases l with
  | nil => exact List.Chain.nil
  | cons c l =>
    rw [List.chain_cons] at h ⊢
    exact ⟨le_trans hab h.1, h.2⟩

theorem chain_to_chain' {r : Nat → Nat → Prop} {b : Nat} {l : List Nat}
    (h : List.Chain r b l) : List.Chain' r l := by
  cases l with
  | nil => trivial
  | cons c l => exact (List.chain_cons.mp h).2

theorem jobPhase_st_lastGetJob (p : Params) (o : Obs) (s : OrchState)
    (ka : List (Nat × Request)) :
    (jobPhase p o s ka).st.lastGetJob =
      if o.slot.is_valid = false ∧ o.now - s.lastGetJob > 5000 then o.now
      else s.lastGetJob := by
  by_cases h1 : o.slot.is_valid = false
  · by_cases h2 : o.now - s.lastGetJob > 5000
    · simp [jobPhase, h1, h2]
    · simp [jobPhase, h1, h2]
  · by_cases h3 : o.graphs.isEmpty <;> simp [jobPhase, h1, h3]

theorem jobPhase_st_lastKeepAlive (p : Params) (o : Obs) (s : OrchState)
    (ka : List (Nat × Request)) :
    (jobPhase p o s ka).st.lastKeepAlive = s.lastKeepAlive := by
  by_cases h1 : o.slot.is_valid = false
  · by_cases h2 : o.now - s.lastGetJob > 5000 <;> simp [jobPhase, h1, h2]
  · by_cases h3 : o.graphs.isEmpty <;> simp [jobPhase, h1, h3]

theorem jobPhase_gjTimes (p : Params) (o : Obs) (s : OrchState)
    (ka : List (Nat × Request)) :
    reqTimes Request.isGetJob (jobPhase p o s ka).reqs =
      reqTimes Request.isGetJob ka ++
        (if o.slot.is_valid = false ∧ o.now - s.lastGetJob > 5000 then [o.now]
         else []) := by
  by_cases h1 : o.slot.is_valid = false
  · by_cases h2 : o.now - s.lastGetJob > 5000
    · simp [jobPhase, h1, h2, reqTimes_append, reqTimes, Request.isGetJob]
    · simp [jobPhase, h1, h2]
  · by_cases h3 : o.graphs.isEmpty <;>
      simp [jobPhase, h1, h3, reqTimes_append, reqTimes, Request.isGetJob]

theorem jobPhase_kaTimes (p : Params) (o : Obs) (s : OrchState)
    (ka : List (Nat × Request)) :
    reqTimes Request.isKeepAlive (jobPhase p o s ka).reqs =
      reqTimes Request.isKeepAlive ka := by
  by_cases h1 : o.slot.is_valid = false
  · by_cases h2 : o.now - s.lastGetJob > 5000 <;>
      simp [jobPhase, h1, h2, reqTimes_append, reqTimes, Request.isKeepAlive]
  · by_cases h3 : o.graphs.isEmpty <;>
      simp [jobPhase, h1, h3, reqTimes_append, reqTimes, Request.isKeepAlive]

theorem orchBody_st_lastGetJob (p : Params) (o : Obs) (s : OrchState) :
    (orchBody p o s).st.lastGetJob =
      if o.slot.is_valid = false ∧ o.now - s.lastGetJob > 5000 then o.now
      else s.lastGetJob := by
  by_cases hka : o.now - s.lastKeepAlive > 20000 <;>
    simp [orchBody, hka, jobPhase_st_lastGetJob]

theorem orchBody_st_lastKeepAlive (p : Params) (o : Obs) (s : OrchState) :
    (orchBody p o s).st.lastKeepAlive =
      if o.now - s.lastKeepAlive > 20000 then o.now else s.lastKeepAlive := by
  by_cases hka : o.now - s.lastKeepAlive > 20000 <;>
    simp [orchBody, hka, jobPhase_st_lastKeepAlive]

theorem orchBody_gjTimes (p : Params) (o : Obs) (s : OrchState) :
    reqTimes Request.isGetJob (orchBody p o s).reqs =
      if o.slot.is_valid = false ∧ o.now - s.lastGetJob > 5000 then [o.now]
      else [] := by
  by_cases hka : o.now - s.lastKeepAlive > 20000
  · rw [orchBody, if_pos hka, jobPhase_gjTimes]
    simp [reqTimes, Request.isGetJob]
  · rw [orchBody, if_neg hka, jobPhase_gjTimes]
    simp [reqTimes]

theorem orchBody_kaTimes (p : Params) (o : Obs) (s : OrchState) :
    reqTimes Request.isKeepAlive (orchBody p o s).reqs =
      if o.now - s.lastKeepAlive > 20000 then [o.now] else [] := by
  by_cases hka : o.now - s.lastKeepAlive > 20000
  · rw [orchBody, if_pos hka, jobPhase_kaTimes, if_pos hka]
    simp [reqTimes, Request.isKeepAlive]
  · rw [orchBody, if_neg hka, jobPhase_kaTimes, if_neg hka]
    simp [reqTimes]

theorem gj_chain (p : Params) (obs : List Obs) :
    ∀ s : OrchState, List.Chain (· ≤ ·) s.lastGetJob (obs.map Obs.now) →
      List.Chain (fun a b => a + 5000 < b) s.lastGetJob
        (reqTimes Request.isGetJob (orchRun p s obs).reqs) := by
  induction obs with
  | nil =>
    intro s _
    simp only [orchRun, reqTimes, List.filter_nil, List.map_nil]
    exact List.Chain.nil
  | cons o rest ih =>
    intro s h
    rw [List.map_cons, List.chain_cons] at h
    obtain ⟨hle, htail⟩ := h
    by_cases hc : (o.isRunning && !o.exiting) = true
    · rw [orchRun, if_pos hc]
      have hst := orchBody_st_lastGetJob p o s
      have hts := orchBody_gjTimes p o s
      by_cases hgj : o.slot.is_valid = false ∧ o.now - s.lastGetJob > 5000
      · rw [if_pos hgj] at hst hts
        have hrec := ih (orchBody p o s).st (by rw [hst]; exact htail)
        rw [hst] at hrec
        simp only [reqTimes_append, hts, List.singleton_append]
        rw [List.chain_cons]
        exact ⟨by omega, hrec⟩
      · rw [if_neg hgj] at hst hts
        have hrec := ih (orchBody p o s).st
          (by rw [hst]; exact chain_le_of_le hle htail)
        rw [hst] at hrec
        simpa only [reqTimes_append, hts, List.nil_append] using hrec
    · rw [orchRun, if_neg hc]
      simp only [reqTimes, List.filter_nil, List.map_nil]
      exact List.Chain.nil

theorem ka_chain (p : Params) (obs : List Obs) :
    ∀ s : OrchState, List.Chain (· ≤ ·) s.lastKeepAlive (obs.map Obs.now) →
      List.Chain (fun a b => a + 20000 < b) s.lastKeepAlive
        (reqTimes Request.isKeepAlive (orchRun p s obs).reqs) := by
  induction obs with
  | nil =>
    intro s _
    simp only [orchRun, reqTimes, List.filter_nil, List.map_nil]
    exact List.Chain.nil
  | cons o rest ih =>
    intro s h
    rw [List.map_cons, List.chain_cons] at h
    obtain ⟨hle, htail⟩ := h
    by_cases hc : (o.isRunning && !o.exiting) = true
    · rw [orchRun, if_pos hc]
      have hst := orchBody_st_lastKeepAlive p o s
      have hts := orchBody_kaTimes p o s
      by_cases hka : o.now - s.lastKeepAlive > 20000
      · rw [if_pos hka] at hst hts
        have hrec := ih (orchBody p o s).st (by rw [hst]; exact htail)
        rw [hst] at hrec
        simp only [reqTimes_append, hts, List.singleton_append]
        rw [List.chain_cons]
        exact ⟨by omega, hrec⟩
      · rw [if_neg hka] at hst hts
        have hrec := ih (orchBody p o s).st
          (by rw [hst]; exact chain_le_of_le hle htail)
        rw [hst] at hrec
        simpa only [reqTimes_append, hts, List.nil_append] using hrec
    · rw [orchRun, if_neg hc]
      simp only [reqTimes, List.filter_nil, List.map_nil]
      exact List.Chain.nil

theorem orchBody_reqs_kinds (p : Params) (o : Obs) (s : OrchState) :
    (orchBody p o s).reqs.all isLoopRequest = true := by
  by_cases hka : o.now - s.lastKeepAlive > 20000 <;>
    by_cases h1 : o.slot.is_valid = false <;>
      by_cases h2 : o.now - s.lastGetJob > 5000 <;>
        by_cases h3 : o.graphs.isEmpty <;>
          simp [orchBody, jobPhase, hka, h1, h2, h3, isLoopRequest,
            Request.isKeepAlive, Request.isGetJob, Request.isSubmit]

theorem orchRun_reqs_kinds (p : Params) (obs : List Obs) :
    ∀ s : OrchState, (orchRun p s obs).reqs.all isLoopRequest = true := by
  induction obs with
  | nil => intro s; simp [orchRun]
  | cons o rest ih =>
    intro s
    by_cases hc : (o.isRunning && !o.exiting) = true
    · rw [orchRun, if_pos hc]
      simp only [List.all_append]
      rw [orchBody_reqs_kinds, ih]
      rfl
    · rw [orchRun, if_neg hc]
      simp

theorem orchRun_append_exit (p : Params) (pre : List Obs) :
    ∀ (s : OrchState) (o : Obs) (post : List Obs),
      (orchRun p s pre).exited = false →
      (o.isRunning && !o.exiting) = false →
      orchRun p s (pre ++ o :: post) =
        ⟨(orchRun p s pre).st, (orchRun p s pre).reqs,
          (orchRun p s pre).logs, true⟩ := by
  induction pre with
  | nil =>
    intro s o post _ hc
    simp only [List.nil_append, orchRun, hc]
    simp [orchRun]
  | cons o' pre' ih =>
    intro s o post hpre hc
    by_cases hc' : (o'.isRunning && !o'.exiting) = true
    · rw [orchRun, if_pos hc'] at hpre
      simp only at hpre
      simp only [List.cons_append]
      simp only [orchRun, hc', if_true]
      rw [ih (orchBody p o' s).st o post hpre hc]
    · rw [orchRun, if_neg hc'] at hpre
      simp at hpre


theorem isConnect_enqueue (r : Request) :
    SupEvent.isConnect (SupEvent.enqueue r) = false := rfl

theorem isConnect_stopRunning :
    SupEvent.isConnect SupEvent.stopRunning = false := rfl

theorem isConnect_joinReader :
    SupEvent.isConnect SupEvent.joinReader = false := rfl

theorem isConnect_joinWriter :
    SupEvent.isConnect SupEvent.joinWriter = false := rfl

theorem isConnect_connectAttempt :
    SupEvent.isConnect SupEvent.connectAttempt = true := rfl

theorem filterConnect_map_enqueue (l : List (Nat × Request)) :
    (l.map fun q => (q.1, SupEvent.enqueue q.2)).filter
      (fun ev => SupEvent.isConnect ev.2) = [] := by
  induction l with
  | nil => rfl
  | cons a l ih =>
    rw [List.map_cons, List.filter_cons]
    simp only [isConnect_enqueue, Bool.false_eq_true, if_false]
    exact ih

theorem connectTimes_success (p : Params) (t : Nat) (e : EpochIn)
    (rest : List EpochIn) (he : e.exitingAtTop = false)
    (hc : e.connectOk = true) :
    connectTimes (superRun p t (e :: rest)) =
      t :: connectTimes (superRun p e.postTime rest) := by
  rw [superRun, if_neg (by simp [he]), if_pos hc]
  simp only [connectTimes, List.filter_append, List.filter_cons,
    isConnect_connectAttempt, isConnect_enqueue, isConnect_stopRunning,
    isConnect_joinReader, isConnect_joinWriter, filterConnect_map_enqueue,
    if_true, Bool.false_eq_true, if_false, List.nil_append, List.map_cons,
    List.singleton_append, List.map_append]

theorem connectTimes_failure (p : Params) (t : Nat) (e : EpochIn)
    (rest : List EpochIn) (he : e.exitingAtTop = false)
    (hc : e.connectOk = false) :
    connectTimes (superRun p t (e :: rest)) =
      t :: connectTimes (superRun p (t + e.connectDur + 30000) rest) := by
  rw [superRun, if_neg (by simp [he]), if_neg (by simp [hc])]
  simp only [connectTimes, List.filter_cons, isConnect_connectAttempt,
    if_true, List.map_cons]

theorem connectTimes_head (p : Params) (l : List EpochIn) (t u : Nat)
    (h : (connectTimes (superRun p t l)).head? = some u) : u = t := by
  cases l with
  | nil => simp [superRun, connectTimes] at h
  | cons e rest =>
    by_cases he : e.exitingAtTop
    · rw [superRun, if_pos he] at h
      simp [connectTimes] at h
    · rw [superRun, if_neg he] at h
      by_cases hc : e.connectOk
      · rw [if_pos hc] at h
        simp only at h
        simp [connectTimes, List.filter_cons, SupEvent.isConnect] at h
        omega
      · rw [if_neg hc] at h
        simp only at h
        simp [connectTimes, List.filter_cons, SupEvent.isConnect] at h
        omega

theorem superRun_no_exit (p : Params) (l : List EpochIn) :
    ∀ t : Nat, (∀ x ∈ l, x.exitingAtTop = false) →
      (superRun p t l).result = SupResult.fuelOut ∧
      (connectTimes (superRun p t l)).length = l.length := by
  induction l with
  | nil => intro t _; exact ⟨rfl, rfl⟩
  | cons e rest ih =>
    intro t h
    have he : e.exitingAtTop = false := h e (List.mem_cons_self e rest)
    have hrest : ∀ x ∈ rest, x.exitingAtTop = false :=
      fun x hx => h x (List.mem_cons_of_mem e hx)
    by_cases hc : e.connectOk
    · obtain ⟨h1, h2⟩ := ih e.postTime hrest
      refine ⟨?_, ?_⟩
      · rw [superRun, if_neg (by simp [he]), if_pos hc]
        exact h1
      · rw [connectTimes_success p t e rest he hc, List.length_cons, h2,
          List.length_cons]
    · obtain ⟨h1, h2⟩ := ih (t + e.connectDur + 30000) hrest
      have hc' : e.connectOk = false := by simpa using hc
      refine ⟨?_, ?_⟩
      · rw [superRun, if_neg (by simp [he]), if_neg (by simp [hc'])]
        exact h1
      · rw [connectTimes_failure p t e rest he hc', List.length_cons, h2,
          List.length_cons]

theorem parsePairs_append (x : String) :
    ∀ (ts : List String) (st : Config), ts.length % 2 = 0 →
      parsePairs (ts ++ [x]) st = parsePairs ts st
  | [], st, _ => rfl
  | [a], _, h => by simp at h
  | a :: b :: rest, st, h => by
    have h' : rest.length % 2 = 0 := by
      simp only [List.length_cons] at h
      omega
    show parsePairs (a :: b :: (rest ++ [x])) st = parsePairs (a :: b :: rest) st
    rw [parsePairs, parsePairs]
    cases happly : applyPair a b st with
    | ok st' => exact parsePairs_append x rest st' h'
    | error e => rfl


/-! ## Claim theorems -/

/-- C1: for every solving attempt in which the solver returns one or more
solution candidates, exactly one submission is enqueued for that attempt
(the single `sendResponseRequest` call at line 188), and it references the
job read from the job slot for that attempt (hence its job id) and the
same nonce that was drawn for the attempt and used to derive its seed
hash (`currentTask.calculate_seed_hash(nonce, v)` at line 178 and
`sendResponseRequest(..., nonce, ...)` use the same `nonce`). -/
theorem c1_single_submission (p : Params) (o : Obs) (s : OrchState)
    (hv : o.slot.is_valid = true) (hg : o.graphs ≠ []) :
    ((orchBody p o s).reqs.filter fun q => Request.isSubmit q.2) =
      [(o.now, Request.submit p.edge_bits o.slot o.nonce o.resNonces)]
    ∧ (orchBody p o s).attempt =
        some (o.slot, o.nonce, p.hashFn o.slot o.nonce) := by
  have h1 : ¬ (o.slot.is_valid = false) := by simp [hv]
  have h3 : o.graphs.isEmpty = false := by
    cases hgr : o.graphs with
    | nil => exact absurd hgr hg
    | cons a l => rfl
  by_cases hka : o.now - s.lastKeepAlive > 20000 <;>
    simp [orchBody, jobPhase, hka, h1, h3, Request.isSubmit,
      Request.isKeepAlive, List.filter_cons]

/-- Witness for C1 at the spec scenario: job id 7, height 100,
difficulty 1, nonce 42, one solver result. -/
theorem c1_witness :
    mineObs.slot.is_valid = true ∧ mineObs.graphs ≠ [] ∧
    (((orchBody p0 mineObs ⟨0, 0⟩).reqs.filter fun q => Request.isSubmit q.2) =
        [(mineObs.now, Request.submit p0.edge_bits mineObs.slot mineObs.nonce
          mineObs.resNonces)]
      ∧ (orchBody p0 mineObs ⟨0, 0⟩).attempt =
          some (mineObs.slot, mineObs.nonce,
            p0.hashFn mineObs.slot mineObs.nonce)) :=
  ⟨rfl, by decide, c1_single_submission p0 mineObs ⟨0, 0⟩ rfl (by decide)⟩

/-- C10: for every solving attempt in which the solver returns zero
solution candidates, no submission is enqueued for that attempt and no
"Found solutions" summary is logged; the attempt adds at most a keep-alive
to the outbound traffic (so the traffic still consists only of login,
keep-alive and get-job requests), and the loop proceeds directly to the
next iteration, re-polling the job slot. -/
theorem c10_no_candidates (p : Params) (o : Obs) (s : OrchState)
    (rest : List Obs) (hv : o.slot.is_valid = true) (hg : o.graphs = [])
    (hr : o.isRunning = true) (he : o.exiting = false) :
    ((orchBody p o s).reqs.filter fun q => Request.isSubmit q.2) = []
    ∧ (∀ q ∈ (orchBody p o s).reqs, q.2 = Request.keepAlive)
    ∧ (orchBody p o s).logs =
        [LogLine.startingJob o.slot.jobId o.slot.height o.slot.difficulty
          o.nonce]
    ∧ orchRun p s (o :: rest) =
        ⟨(orchRun p (orchBody p o s).st rest).st,
          (orchBody p o s).reqs ++ (orchRun p (orchBody p o s).st rest).reqs,
          (orchBody p o s).logs ++ (orchRun p (orchBody p o s).st rest).logs,
          (orchRun p (orchBody p o s).st rest).exited⟩ := by
  have h1 : ¬ (o.slot.is_valid = false) := by simp [hv]
  have h3 : o.graphs.isEmpty = true := by rw [hg]; rfl
  refine ⟨?_, ?_, ?_, ?_⟩
  · by_cases hka : o.now - s.lastKeepAlive > 20000 <;>
      simp [orchBody, jobPhase, hka, h1, h3, Request.isSubmit,
        List.filter_cons]
  · by_cases hka : o.now - s.lastKeepAlive > 20000 <;>
      simp [orchBody, jobPhase, hka, h1, h3]
  · by_cases hka : o.now - s.lastKeepAlive > 20000 <;>
      simp [orchBody, jobPhase, hka, h1, h3]
  · rw [orchRun, if_pos (by simp [hr, he])]

/-- Witness for C10: same scenario job, solver finds nothing. -/
theorem c10_witness :
    mineObsNone.slot.is_valid = true ∧ mineObsNone.graphs = [] ∧
    (((orchBody p0 mineObsNone ⟨0, 0⟩).reqs.filter
        fun q => Request.isSubmit q.2) = []
      ∧ (∀ q ∈ (orchBody p0 mineObsNone ⟨0, 0⟩).reqs,
          q.2 = Request.keepAlive)
      ∧ (orchBody p0 mineObsNone ⟨0, 0⟩).logs =
          [LogLine.startingJob mineObsNone.slot.jobId mineObsNone.slot.height
            mineObsNone.slot.difficulty mineObsNone.nonce]
      ∧ orchRun p0 ⟨0, 0⟩ (mineObsNone :: []) =
          ⟨(orchRun p0 (orchBody p0 mineObsNone ⟨0, 0⟩).st []).st,
            (orchBody p0 mineObsNone ⟨0, 0⟩).reqs ++
              (orchRun p0 (orchBody p0 mineObsNone ⟨0, 0⟩).st []).reqs,
            (orchBody p0 mineObsNone ⟨0, 0⟩).logs ++
              (orchRun p0 (orchBody p0 mineObsNone ⟨0, 0⟩).st []).logs,
            (orchRun p0 (orchBody p0 mineObsNone ⟨0, 0⟩).st []).exited⟩) :=
  ⟨rfl, rfl, c10_no_candidates p0 mineObsNone ⟨0, 0⟩ [] rfl rfl rfl rfl⟩


/-- C2 counterexample: in the canonical 10-second idle epoch (loop waking
every 100 ms, timers initialised to the epoch start per lines 141–142, no
job ever available) the loop does NOT enqueue two get-job requests: no
get-job request is sent at t ≈ 0, because `last_get_job_request_time`
starts at the epoch start time and line 156 requires strictly more than
5 s to have elapsed. -/
theorem c2_counterexample :
    ¬ (reqTimes Request.isGetJob (orchRun p0 ⟨0, 0⟩ idleTrace).reqs).length
        = 2 := by decide

/-- C2 amended: for every epoch in which no job ever becomes available,
during the first 10 seconds of idle looping exactly one get-job request is
enqueued — at t ≈ 5 s (5100 ms in the canonical 100 ms-cadence trace), the
first iteration at which strictly more than 5 s have elapsed since epoch
start — and zero submissions are enqueued; more generally, consecutive
get-job requests while idle are separated by at least 5 seconds. -/
theorem c2_amended :
    (reqTimes Request.isGetJob (orchRun p0 ⟨0, 0⟩ idleTrace).reqs = [5100]
      ∧ reqTimes Request.isSubmit (orchRun p0 ⟨0, 0⟩ idleTrace).reqs = [])
    ∧ (∀ (p : Params) (s : OrchState) (obs : List Obs),
        List.Chain (· ≤ ·) s.lastGetJob (obs.map Obs.now) →
        List.Chain' (fun a b => a + 5000 ≤ b)
          (reqTimes Request.isGetJob (orchRun p s obs).reqs)) := by
  refine ⟨by decide, ?_⟩
  intro p s obs h
  exact (chain_to_chain' (gj_chain p obs s h)).imp fun a b hab => by omega

/-- Witness for C2's general part at the canonical idle trace. -/
theorem c2_witness :
    List.Chain (· ≤ ·) ((⟨0, 0⟩ : OrchState).lastGetJob)
      (idleTrace.map Obs.now)
    ∧ List.Chain' (fun a b => a + 5000 ≤ b)
        (reqTimes Request.isGetJob (orchRun p0 ⟨0, 0⟩ idleTrace).reqs) :=
  ⟨by decide, c2_amended.2 p0 ⟨0, 0⟩ idleTrace (by decide)⟩

/-- C3 counterexample: at exactly 20 s elapsed since the last keep-alive,
line 146's strict `>` does not fire — no keep-alive request is enqueued
and the timer is not reset — refuting the claim's `≥ 20 s` trigger. -/
theorem c3_counterexample :
    kaBoundaryObs.now - (⟨0, 0⟩ : OrchState).lastKeepAlive ≥ 20000
    ∧ ((orchBody p0 kaBoundaryObs ⟨0, 0⟩).reqs.filter
        fun q => Request.isKeepAlive q.2) = []
    ∧ (orchBody p0 kaBoundaryObs ⟨0, 0⟩).st.lastKeepAlive =
        (⟨0, 0⟩ : OrchState).lastKeepAlive := by decide

/-- C3 amended: on every iteration of the orchestrator loop, if the time
elapsed since the last keep-alive is STRICTLY MORE than 20 seconds, a
keep-alive request is enqueued and the keep-alive timer is reset to the
current time; consequently any two consecutive keep-alive requests within
an epoch are separated by at least 20 seconds, regardless of the loop's
iteration cadence. -/
theorem c3_amended :
    (∀ (p : Params) (o : Obs) (s : OrchState),
      o.now - s.lastKeepAlive > 20000 →
      ((orchBody p o s).reqs.filter fun q => Request.isKeepAlive q.2) =
          [(o.now, Request.keepAlive)]
        ∧ (orchBody p o s).st.lastKeepAlive = o.now)
    ∧ (∀ (p : Params) (s : OrchState) (obs : List Obs),
        List.Chain (· ≤ ·) s.lastKeepAlive (obs.map Obs.now) →
        List.Chain' (fun a b => a + 20000 ≤ b)
          (reqTimes Request.isKeepAlive (orchRun p s obs).reqs)) := by
  constructor
  · intro p o s hka
    constructor
    · by_cases h1 : o.slot.is_valid = false <;>
        by_cases h2 : o.now - s.lastGetJob > 5000 <;>
          by_cases h3 : o.graphs.isEmpty <;>
            simp [orchBody, jobPhase, hka, h1, h2, h3, Request.isKeepAlive,
              Request.isGetJob, Request.isSubmit, List.filter_cons]
    · rw [orchBody_st_lastKeepAlive, if_pos hka]
  · intro p s obs h
    exact (chain_to_chain' (ka_chain p obs s h)).imp fun a b hab => by omega

/-- Witness for C3: at 20100 ms elapsed the keep-alive fires and the timer
resets; the canonical idle trace satisfies the separation chain. -/
theorem c3_witness :
    kaFireObs.now - (⟨0, 0⟩ : OrchState).lastKeepAlive > 20000
    ∧ (((orchBody p0 kaFireObs ⟨0, 0⟩).reqs.filter
          fun q => Request.isKeepAlive q.2) =
        [(kaFireObs.now, Request.keepAlive)]
      ∧ (orchBody p0 kaFireObs ⟨0, 0⟩).st.lastKeepAlive = kaFireObs.now)
    ∧ List.Chain' (fun a b => a + 20000 ≤ b)
        (reqTimes Request.isKeepAlive (orchRun p0 ⟨0, 0⟩ idleTrace).reqs) :=
  ⟨by decide, c3_amended.1 p0 kaFireObs ⟨0, 0⟩ (by decide),
    c3_amended.2 p0 ⟨0, 0⟩ idleTrace (by decide)⟩


/-- C4: whenever the shared running flag is observed false mid-epoch while
cancellation has not fired, the orchestrator loop exits at that very
condition check (no further iterations contribute events), the supervisor
stops and joins the reader and writer tasks, and then initiates a new
connect attempt (it is the first event of the following epoch). -/
theorem c4_transport_failure (p : Params) (t : Nat) (e e2 : EpochIn)
    (rest : List EpochIn) (pre post : List Obs) (o : Obs)
    (he : e.exitingAtTop = false) (hc : e.connectOk = true)
    (hobs : e.obs = pre ++ o :: post)
    (hpre : (orchRun p ⟨t + e.connectDur, t + e.connectDur⟩ pre).exited
      = false)
    (ho : o.isRunning = false) (hoe : o.exiting = false)
    (he2 : e2.exitingAtTop = false) :
    (superRun p t (e :: e2 :: rest)).events =
      (t, SupEvent.connectAttempt) ::
        (t + e.connectDur,
          SupEvent.enqueue (Request.login p.loginName p.password true)) ::
        ((orchRun p ⟨t + e.connectDur, t + e.connectDur⟩ pre).reqs.map
          fun q => (q.1, SupEvent.enqueue q.2)) ++
        (e.postTime, SupEvent.stopRunning) ::
        (e.postTime, SupEvent.joinReader) ::
        (e.postTime, SupEvent.joinWriter) ::
        (superRun p e.postTime (e2 :: rest)).events
    ∧ (superRun p e.postTime (e2 :: rest)).events.head? =
        some (e.postTime, SupEvent.connectAttempt) := by
  constructor
  · rw [superRun, if_neg (by simp [he]), if_pos hc]
    simp only
    rw [hobs, orchRun_append_exit p pre _ o post hpre (by simp [ho])]
  · rw [superRun, if_neg (by simp [he2])]
    by_cases hc2 : e2.connectOk
    · rw [if_pos hc2]
      rfl
    · rw [if_neg hc2]
      rfl

/-- Witness for C4: an epoch that fails at its first inner observation,
followed by one more epoch input. -/
theorem c4_witness :
    eFail.obs = [] ++ failObs :: [] ∧
    ((superRun p0 0 (eFail :: eConnFail :: [])).events =
      (0, SupEvent.connectAttempt) ::
        (0 + eFail.connectDur,
          SupEvent.enqueue (Request.login p0.loginName p0.password true)) ::
        ((orchRun p0 ⟨0 + eFail.connectDur, 0 + eFail.connectDur⟩ []).reqs.map
          fun q => (q.1, SupEvent.enqueue q.2)) ++
        (eFail.postTime, SupEvent.stopRunning) ::
        (eFail.postTime, SupEvent.joinReader) ::
        (eFail.postTime, SupEvent.joinWriter) ::
        (superRun p0 eFail.postTime (eConnFail :: [])).events
    ∧ (superRun p0 eFail.postTime (eConnFail :: [])).events.head? =
        some (eFail.postTime, SupEvent.connectAttempt)) :=
  ⟨rfl, c4_transport_failure p0 0 eFail eConnFail [] [] [] failObs rfl rfl
    rfl rfl rfl rfl rfl⟩

/-- C5: after a failed connect attempt the supervisor sleeps 30 s before
looping, so the next connect attempt (when one occurs) is at least 30 s
later; and the supervisor loop never terminates because of connect
failures — as long as cancellation is never observed, it attempts one
connect per iteration for as many iterations as the environment supplies,
and only cancellation yields a terminated run. -/
theorem c5_backoff (p : Params) (t : Nat) (e : EpochIn)
    (rest : List EpochIn) (he : e.exitingAtTop = false)
    (hc : e.connectOk = false) :
    connectTimes (superRun p t (e :: rest)) =
      t :: connectTimes (superRun p (t + e.connectDur + 30000) rest)
    ∧ (∀ u, (connectTimes (superRun p (t + e.connectDur + 30000)
        rest)).head? = some u → t + 30000 ≤ u)
    ∧ (∀ (l : List EpochIn) (t0 : Nat),
        (∀ x ∈ l, x.exitingAtTop = false) →
        (superRun p t0 l).result = SupResult.fuelOut ∧
          (connectTimes (superRun p t0 l)).length = l.length) := by
  refine ⟨connectTimes_failure p t e rest he hc, ?_, ?_⟩
  · intro u hu
    have := connectTimes_head p rest (t + e.connectDur + 30000) u hu
    omega
  · intro l t0 hl
    exact superRun_no_exit p l t0 hl

/-- Witness for C5: two consecutive failed connect attempts. -/
theorem c5_witness :
    connectTimes (superRun p0 0 (eConnFail :: eConnFail :: [])) =
      0 :: connectTimes (superRun p0 (0 + eConnFail.connectDur + 30000)
        (eConnFail :: []))
    ∧ (∀ u, (connectTimes (superRun p0 (0 + eConnFail.connectDur + 30000)
        (eConnFail :: []))).head? = some u → 0 + 30000 ≤ u)
    ∧ (∀ (l : List EpochIn) (t0 : Nat),
        (∀ x ∈ l, x.exitingAtTop = false) →
        (superRun p0 t0 l).result = SupResult.fuelOut ∧
          (connectTimes (superRun p0 t0 l)).length = l.length) :=
  c5_backoff p0 0 eConnFail (eConnFail :: []) rfl rfl

/-- C6: when the process-wide cancellation flag fires, the orchestrator
loop exits at its next condition check, the session supervisor does not
start another epoch (its run ends as `cancelled`, with no further connect
attempt), and `main` returns 0 whenever its arguments parsed. -/
theorem c6_cancellation :
    (∀ (p : Params) (s : OrchState) (o : Obs) (rest : List Obs),
      o.exiting = true → orchRun p s (o :: rest) = ⟨s, [], [], true⟩)
    ∧ (∀ (p : Params) (t : Nat) (e : EpochIn) (rest : List EpochIn),
        e.exitingAtTop = true →
        superRun p t (e :: rest) = ⟨t, [], SupResult.cancelled⟩)
    ∧ (∀ (hashFn : CuckaJob → Nat → Seed) (argv : List String)
        (inputs : List EpochIn), (parseArgs argv).isOk = true →
        (mainModel hashFn argv inputs).exitCode = 0) := by
  refine ⟨?_, ?_, ?_⟩
  · intro p s o rest ho
    rw [orchRun, if_neg (by simp [ho])]
  · intro p t e rest he
    rw [superRun, if_pos he]
  · intro hashFn argv inputs h
    cases hok : parseArgs argv with
    | ok cfg => simp [mainModel, hok]
    | error e =>
      rw [hok] at h
      simp [Except.isOk, Except.toBool] at h

/-- Witness for C6 at concrete inputs: an exiting observation, a cancelled
epoch input, and a well-formed argument vector. -/
theorem c6_witness :
    exitObs.exiting = true
    ∧ orchRun p0 ⟨0, 0⟩ (exitObs :: []) = ⟨⟨0, 0⟩, [], [], true⟩
    ∧ superRun p0 0 (eCancel :: []) = ⟨0, [], SupResult.cancelled⟩
    ∧ (parseArgs goodArgv).isOk = true
    ∧ (mainModel (fun _ _ => (0, 0, 0, 0)) goodArgv []).exitCode = 0 :=
  ⟨rfl, c6_cancellation.1 p0 ⟨0, 0⟩ exitObs [] rfl,
    c6_cancellation.2.1 p0 0 eCancel [] rfl, by decide,
    c6_cancellation.2.2 (fun _ _ => (0, 0, 0, 0)) goodArgv [] (by decide)⟩

/-- C7: within every epoch the login request is enqueued before the
orchestrator loop starts, so on the FIFO outbound queue it precedes every
keep-alive, get-job and submit request of that epoch: the epoch's event
trace places the login enqueue before all orchestrator enqueues, and every
request the orchestrator enqueues is a keep-alive, get-job or submit
request (never another login). -/
theorem c7_login_first (p : Params) (t : Nat) (e : EpochIn)
    (rest : List EpochIn) (he : e.exitingAtTop = false)
    (hc : e.connectOk = true) :
    (superRun p t (e :: rest)).events =
      (t, SupEvent.connectAttempt) ::
        (t + e.connectDur,
          SupEvent.enqueue (Request.login p.loginName p.password true)) ::
        ((orchRun p ⟨t + e.connectDur, t + e.connectDur⟩ e.obs).reqs.map
          fun q => (q.1, SupEvent.enqueue q.2)) ++
        (e.postTime, SupEvent.stopRunning) ::
        (e.postTime, SupEvent.joinReader) ::
        (e.postTime, SupEvent.joinWriter) ::
        (superRun p e.postTime rest).events
    ∧ (orchRun p ⟨t + e.connectDur, t + e.connectDur⟩ e.obs).reqs.all
        isLoopRequest = true := by
  constructor
  · rw [superRun, if_neg (by simp [he]), if_pos hc]
  · exact orchRun_reqs_kinds p e.obs _

/-- Witness for C7 at the one-observation epoch `eFail`. -/
theorem c7_witness :
    (superRun p0 0 (eFail :: [])).events =
      (0, SupEvent.connectAttempt) ::
        (0 + eFail.connectDur,
          SupEvent.enqueue (Request.login p0.loginName p0.password true)) ::
        ((orchRun p0 ⟨0 + eFail.connectDur, 0 + eFail.connectDur⟩
            eFail.obs).reqs.map fun q => (q.1, SupEvent.enqueue q.2)) ++
        (eFail.postTime, SupEvent.stopRunning) ::
        (eFail.postTime, SupEvent.joinReader) ::
        (eFail.postTime, SupEvent.joinWriter) ::
        (superRun p0 eFail.postTime []).events
    ∧ (orchRun p0 ⟨0 + eFail.connectDur, 0 + eFail.connectDur⟩
        eFail.obs).reqs.all isLoopRequest = true :=
  c7_login_first p0 0 eFail [] rfl rfl


/-- C8: every malformed invocation — fewer than the required arguments
(`argc < 7`), a `-node` value without a colon, an unknown argument key, a
missing host or port, or an algorithm other than C31/C32 — is reported as
a parse error (the model of the `std::cerr` report), which makes the
process exit with status 1 without any supervisor run, hence without
attempting any connection. -/
theorem c8_malformed_params :
    (∀ argv : List String, argv.length < 7 →
      parseArgs argv = Except.error ParseError.usage)
    ∧ (∀ (value : String) (rest : List String) (st : Config),
        findColon value.toList = none →
        parsePairs ("-node" :: value :: rest) st =
          Except.error ParseError.invalidNode)
    ∧ (∀ (key value : String) (rest : List String) (st : Config),
        key ≠ "-node" → key ≠ "-login" → key ≠ "-pass" → key ≠ "-algo" →
        parsePairs (key :: value :: rest) st =
          Except.error (ParseError.unknownArg key))
    ∧ (∀ st : Config, st.nodePort = -1 ∨ st.nodeHost = "" →
        checkConfig st = Except.error ParseError.missingNode)
    ∧ (∀ st : Config, ¬ (st.nodePort = -1 ∨ st.nodeHost = "") →
        st.algo ≠ "C31" → st.algo ≠ "C32" →
        checkConfig st = Except.error ParseError.invalidAlgo)
    ∧ (∀ (argv : List String) (e : ParseError), ¬ (argv.length < 7) →
        parsePairs argv.tail initConfig = Except.error e →
        parseArgs argv = Except.error e)
    ∧ (∀ (hashFn : CuckaJob → Nat → Seed) (argv : List String)
        (inputs : List EpochIn) (e : ParseError),
        parseArgs argv = Except.error e →
        mainModel hashFn argv inputs = ⟨1, none⟩) := by
  refine ⟨?_, ?_, ?_, ?_, ?_, ?_, ?_⟩
  · intro argv h
    rw [parseArgs, if_pos h]
  · intro value rest st h
    have ha : applyPair "-node" value st = Except.error ParseError.invalidNode := by
      rw [applyPair, if_pos rfl, h]
    rw [parsePairs, ha]
  · intro key value rest st h1 h2 h3 h4
    have ha : applyPair key value st = Except.error (ParseError.unknownArg key) := by
      rw [applyPair, if_neg h1, if_neg h2, if_neg h3, if_neg h4]
    rw [parsePairs, ha]
  · intro st h
    rw [checkConfig, if_pos h]
  · intro st h h31 h32
    rw [checkConfig, if_neg h, if_pos ⟨h31, h32⟩]
  · intro argv e h1 h2
    rw [parseArgs, if_neg h1, h2]
  · intro hashFn argv inputs e h
    simp [mainModel, h]

/-- Witness for C8: one concrete instance of each malformed category. -/
theorem c8_witness :
    parseArgs ["miner"] = Except.error ParseError.usage
    ∧ parsePairs ["-node", "localhost"] initConfig =
        Except.error ParseError.invalidNode
    ∧ parsePairs ["-x", "y"] initConfig =
        Except.error (ParseError.unknownArg "-x")
    ∧ checkConfig initConfig = Except.error ParseError.missingNode
    ∧ checkConfig ⟨"h", 13, "", "", "C33"⟩ =
        Except.error ParseError.invalidAlgo
    ∧ parseArgs ["m", "-x", "y", "a", "b", "c", "d"] =
        Except.error (ParseError.unknownArg "-x")
    ∧ mainModel (fun _ _ => (0, 0, 0, 0)) ["miner"] [] = ⟨1, none⟩ :=
  ⟨c8_malformed_params.1 ["miner"] (by decide),
    c8_malformed_params.2.1 "localhost" [] initConfig (by decide),
    c8_malformed_params.2.2.1 "-x" "y" [] initConfig (by decide) (by decide)
      (by decide) (by decide),
    c8_malformed_params.2.2.2.1 initConfig (Or.inl rfl),
    c8_malformed_params.2.2.2.2.1 ⟨"h", 13, "", "", "C33"⟩ (by decide)
      (by decide) (by decide),
    c8_malformed_params.2.2.2.2.2.1 ["m", "-x", "y", "a", "b", "c", "d"]
      (ParseError.unknownArg "-x") (by decide) (by decide),
    c8_malformed_params.2.2.2.2.2.2 (fun _ _ => (0, 0, 0, 0)) ["miner"] []
      ParseError.usage
      (c8_malformed_params.1 ["miner"] (by decide))⟩

/-- C9: when `argc` is even and at least 8 (an odd-length token list after
the program name), the final command-line token is never examined: the
parser reads tokens strictly in key/value pairs, so dropping the trailing
unpaired token does not change the parse result. -/
theorem c9_trailing_token (argv : List String) (h1 : argv.length % 2 = 0)
    (h2 : 8 ≤ argv.length) :
    parseArgs argv = parseArgs argv.dropLast := by
  match argv, h1, h2 with
  | [], _, h2 => exact absurd h2 (by simp)
  | [a], _, h2 => exact absurd h2 (by simp)
  | a :: b :: rest, h1, h2 =>
    have hlen : rest.length % 2 = 0 := by
      simp only [List.length_cons] at h1
      omega
    have hlen2 : 6 ≤ rest.length := by
      simp only [List.length_cons] at h2
      omega
    rw [parseArgs, parseArgs]
    rw [if_neg (by simp only [List.length_cons]; omega),
      if_neg (by
        simp only [List.dropLast_cons₂, List.length_cons,
          List.length_dropLast]
        omega)]
    rw [List.dropLast_cons₂]
    simp only [List.tail_cons]
    have hne : (b :: rest) ≠ [] := by simp
    have heven : ((b :: rest).dropLast).length % 2 = 0 := by
      simp only [List.length_dropLast, List.length_cons]
      omega
    conv_lhs =>
      rw [← List.dropLast_append_getLast hne,
        parsePairs_append ((b :: rest).getLast hne) ((b :: rest).dropLast)
          initConfig heven]

/-- Witness for C9: a well-formed vector with one trailing token parses
identically with and without that token. -/
theorem c9_witness :
    oddArgv.length % 2 = 0 ∧ 8 ≤ oddArgv.length ∧
    parseArgs oddArgv = parseArgs oddArgv.dropLast :=
  ⟨by decide, by decide, c9_trailing_token oddArgv (by decide) (by decide)⟩

end MwcMiner
